import Mathlib

/-!
Verification development for the storage / locking core of the
atproto-oauth-starter-kit repository (`src/db.js`).

The development shallowly embeds:

* the key-value store factory `createStore` (lines 6-40), with its Redis
  implementation (flat string keys, `JSON.stringify`/`JSON.parse`) and its
  SQLite implementation (`INSERT OR REPLACE` / `SELECT` / `DELETE` rows);
* the request-lock factory `createRequestLock` (lines 46-105): the Redis
  `SET NX PX` distributed lock with a single 100ms retry and
  compare-and-delete release, and the in-memory promise-map lock;
* the lifecycle manager: `initialize` (lines 115-165), `close`
  (lines 168-197), `healthCheck` (lines 200-221) and the three guarded
  accessors of `module.exports` (lines 223-245).

Backend storage is modelled as association lists of raw strings (Redis's
keyspace, SQLite's two-column tables).  The external JSON serializer is
modelled as a pair of functions (`stringify`, `parse`); properties that the
real `JSON.stringify`/`JSON.parse` satisfy (round-trip on serializable
values, non-empty output, failure on non-JSON input) appear as explicit
hypotheses.  Concurrency of the event loop is modelled as interleaving
transition systems, with each `await` point a separate atomic step.
-/

set_option autoImplicit false

namespace Db

/-! ### Raw string storage

Both backends reduce to a mapping from string keys to raw string values:
Redis stores flat string keys; each SQLite table has a `key TEXT PRIMARY KEY`
and a `value TEXT NOT NULL` column.  We represent such a mapping as an
association list with at most one binding per key (every write goes through
`aset`, which removes the old binding). -/

/-- Raw key-to-string storage (Redis keyspace or one SQLite table). -/
abbrev RawStore := List (String × String)

/-- Look up the raw string bound to `k` (Redis `GET`, or
`SELECT value FROM t WHERE key = ?`).  `none` models Redis's `null` reply
and SQLite's empty result set. -/
def alookup : RawStore → String → Option String
  | [], _ => none
  | (k', v) :: rest, k => if k' = k then some v else alookup rest k

/-- Remove every binding of `k` (Redis `DEL`, or
`DELETE FROM t WHERE key = ?`). -/
def aremove (s : RawStore) (k : String) : RawStore :=
  s.filter (fun p => p.1 ≠ k)

/-- Bind `k` to `v`, replacing any previous binding (unconditional Redis
`SET`, or `INSERT OR REPLACE`). -/
def aset (s : RawStore) (k v : String) : RawStore :=
  (k, v) :: aremove s k

/-! ### The external JSON serializer

`createStore` serializes values with `JSON.stringify` and deserializes with
`JSON.parse`; both are Node built-ins, external to the repository.  We model
them as an abstract pair of functions.  `parse` returns `Except`: an `error`
models a thrown `SyntaxError`. -/

/-- A serializer/deserializer pair modelling `JSON.stringify` /
`JSON.parse` at value type `V`. -/
structure Serializer (V : Type) where
  stringify : V → String
  parse : String → Except String V

instance {ε α : Type} [DecidableEq ε] [DecidableEq α] :
    DecidableEq (Except ε α)
  | Except.ok a, Except.ok b =>
      if h : a = b then isTrue (by rw [h])
      else isFalse (fun hc => h (Except.ok.inj hc))
  | Except.error a, Except.error b =>
      if h : a = b then isTrue (by rw [h])
      else isFalse (fun hc => h (Except.error.inj hc))
  | Except.ok _, Except.error _ => isFalse (fun hc => Except.noConfusion hc)
  | Except.error _, Except.ok _ => isFalse (fun hc => Except.noConfusion hc)

/-- A concrete serializer instance at Boolean values, agreeing with JSON on
that fragment: `JSON.stringify` maps `true`/`false` to the strings `"true"`
and `"false"`, and `JSON.parse` accepts exactly those two strings, throwing
a `SyntaxError` on anything else — in particular on the empty string
(`JSON.parse("")` throws `Unexpected end of JSON input`). -/
def boolSer : Serializer Bool where
  stringify b := if b then "true" else "false"
  parse s :=
    if s = "true" then Except.ok true
    else if s = "false" then Except.ok false
    else Except.error "SyntaxError: Unexpected end of JSON input"

/-! ### The store factory `createStore` (src/db.js lines 6-40)

Each store method becomes a pure function of the backing `RawStore`.
`get` returns `Except String (Option V)`: `Except.error` models a thrown
exception, `Except.ok none` models a returned `undefined`. -/

namespace RedisStore

/-- Redis `set` (line 10-12): `await redisClient.set(key, JSON.stringify(val))`. -/
def set {V : Type} (ser : Serializer V) (s : RawStore) (key : String) (val : V) :
    RawStore :=
  aset s key (ser.stringify val)

/-- Redis `get` (lines 13-16):
`const val = await redisClient.get(key); return val ? JSON.parse(val) : undefined;`.
The reply is `null` (absent) or the stored string; the conditional tests JS
truthiness, so both `null` and the empty string take the `undefined` branch,
and only a non-empty reply reaches `JSON.parse`. -/
def get {V : Type} (ser : Serializer V) (s : RawStore) (key : String) :
    Except String (Option V) :=
  match alookup s key with
  | none => Except.ok none
  | some raw =>
      if raw = "" then Except.ok none
      else (ser.parse raw).map some

/-- Redis `del` (lines 17-19): `await redisClient.del(key)`. -/
def del (s : RawStore) (key : String) : RawStore :=
  aremove s key

end RedisStore

namespace SqliteStore

/-- SQLite `set` (lines 24-27):
`INSERT OR REPLACE INTO t (key, value) VALUES (?, ?)` with `JSON.stringify(val)`. -/
def set {V : Type} (ser : Serializer V) (s : RawStore) (key : String) (val : V) :
    RawStore :=
  aset s key (ser.stringify val)

/-- SQLite `get` (lines 28-33): select the row; `if (!row) return undefined;`
otherwise `return JSON.parse(row.value)` — the parse runs unconditionally on
any present row. -/
def get {V : Type} (ser : Serializer V) (s : RawStore) (key : String) :
    Except String (Option V) :=
  match alookup s key with
  | none => Except.ok none
  | some raw => (ser.parse raw).map some

/-- SQLite `del` (lines 34-37): `DELETE FROM t WHERE key = ?`. -/
def del (s : RawStore) (key : String) : RawStore :=
  aremove s key

end SqliteStore

/-! ### The Redis lock keyspace (`SET NX PX`, `GET`, `DEL`)

The distributed lock of `createRequestLock` (src/db.js lines 49-81) uses
Redis keys `lock:${key}` holding an owner token with a millisecond expiry
(`PX`).  We model that keyspace with explicit expiry timestamps and an
integer millisecond clock: a binding is alive at time `now` iff
`now < expiresAt`.  Redis expiry is passive here: a dead binding behaves
exactly like an absent one. -/

/-- A lock binding: the owner token (`lockValue`) and its absolute expiry
time, set from `PX` at acquisition. -/
structure LockEntry where
  value : String
  expiresAt : Nat
  deriving DecidableEq, Repr

/-- The Redis keyspace restricted to lock keys. -/
abbrev LockSpace := List (String × LockEntry)

/-- Raw binding lookup (ignoring expiry). -/
def llookup : LockSpace → String → Option LockEntry
  | [], _ => none
  | (k', e) :: rest, k => if k' = k then some e else llookup rest k

/-- Remove every binding of `k`. -/
def lremove (s : LockSpace) (k : String) : LockSpace :=
  s.filter (fun p => p.1 ≠ k)

/-- Redis `GET` at time `now`: the stored string if the binding is alive,
`null` (`none`) if absent or expired. -/
def lget (s : LockSpace) (now : Nat) (k : String) : Option String :=
  match llookup s k with
  | some e => if now < e.expiresAt then some e.value else none
  | none => none

/-- Redis `SET key v NX PX px` at time `now`: succeeds iff no alive binding
exists, installing `v` with expiry `now + px`; returns the success flag and
the new keyspace (unchanged on failure). -/
def lsetNxPx (s : LockSpace) (now : Nat) (k v : String) (px : Nat) :
    Bool × LockSpace :=
  match lget s now k with
  | some _ => (false, s)
  | none => (true, (k, ⟨v, now + px⟩) :: lremove s k)

/-- Redis `DEL`. -/
def ldel (s : LockSpace) (k : String) : LockSpace :=
  lremove s k

/-! ### Sequential embedding of the Redis `withLock` (lines 49-81)

One call `withLock(key, fn)` runs a fixed sequence of Redis commands with
`await` points between them.  We embed the call as a state-passing function
over `(time, LockSpace)`.  What other event-loop tasks or other processes do
while this call is suspended enters through two parameters:

* `fnRun t s`: the critical section `fn`, started at time `t` with
  keyspace `s`; it returns `fn`'s outcome (`Except.error` models a throw or
  rejection), the time when it settles, and the keyspace it leaves behind
  (including any expiry or foreign acquisition that happened meanwhile);
* `sleepEff`: what other clients do to the keyspace during the fixed
  100ms retry sleep (`setTimeout(resolve, 100)`, line 62).

The lock timeout is the literal `30000` of line 52; the token `lockValue` of
line 51 is a parameter. -/

/-- The `finally` block (lines 74-79): `GET lockKey`; `DEL` only when the
reply still equals this call's own `lockValue`. -/
def redisRelease {A : Type} (lockKey lockValue : String)
    (r : Except String A) (t : Nat) (s : LockSpace) :
    Except String A × Nat × LockSpace :=
  if lget s t lockKey = some lockValue then (r, t, ldel s lockKey)
  else (r, t, s)

/-- The Redis `withLock(key, fn)` body (lines 49-81): try `SET NX PX`; on
failure sleep 100ms and retry exactly once; on second failure throw
`Could not acquire lock for ${key}` without running `fn`; otherwise run `fn`
inside `try`/`finally` with the compare-and-delete release. -/
def redisWithLock {A : Type} (key lockValue : String)
    (fnRun : Nat → LockSpace → Except String A × Nat × LockSpace)
    (sleepEff : LockSpace → LockSpace)
    (t0 : Nat) (s0 : LockSpace) : Except String A × Nat × LockSpace :=
  let lockKey := "lock:" ++ key
  let acq1 := lsetNxPx s0 t0 lockKey lockValue 30000
  if acq1.1 then
    let run := fnRun t0 acq1.2
    redisRelease lockKey lockValue run.1 run.2.1 run.2.2
  else
    let t1 := t0 + 100
    let s1 := sleepEff acq1.2
    let acq2 := lsetNxPx s1 t1 lockKey lockValue 30000
    if acq2.1 then
      let run := fnRun t1 acq2.2
      redisRelease lockKey lockValue run.1 run.2.1 run.2.2
    else
      (Except.error ("Could not acquire lock for " ++ key), t1, acq2.2)

/-! ### The in-memory lock (src/db.js lines 84-103) as a transition system

The SQLite-mode lock keeps a module-level `Map` from keys to pending
promises.  A `withLock(key, fn)` call loops while the map has the key,
awaiting the stored promise; once the map is free it installs its own
promise and runs `fn`; the `finally` deletes the map entry and resolves the
promise.  Node's event loop interleaves many such calls on one thread, with
`await` as the only suspension points; crucially the `has`/`set` pair
(lines 86, 95) runs without an intervening `await`, so it is one atomic
step.  We model `n` concurrent one-shot `withLock` calls ("threads"), thread
`i` using key `key i` and a critical section that settles with outcome
`fnOk i` (`false` models a throw/rejection). -/

/-- Program counter of one in-memory `withLock(key, fn)` call among `n`. -/
inductive IMPc (n : Nat) where
  /-- at the top of the `while` loop, about to test `inMemoryLocks.has(key)`
  (line 86). -/
  | checking
  /-- suspended in `await inMemoryLocks.get(key)` (line 87) on the promise
  installed by thread `holder`. -/
  | waiting (holder : Fin n)
  /-- own promise installed (lines 91-95), inside `await fn()` (line 98). -/
  | critical
  /-- `fn` has settled; the `finally` block (lines 100-101) is pending. -/
  | exiting
  /-- returned to the caller: `ok = true` for a normal return, `ok = false`
  for a re-thrown rejection of `fn`. -/
  | done (ok : Bool)
  deriving DecidableEq

/-- Global state: each thread's program counter plus the `inMemoryLocks`
map, recorded as which thread's promise (if any) occupies each key. -/
structure IMState (n : Nat) (K : Type) where
  pc : Fin n → IMPc n
  locks : K → Option (Fin n)

/-- One atomic event-loop step of the in-memory lock system. -/
inductive IMStep {n : Nat} {K : Type} [DecidableEq K]
    (key : Fin n → K) (fnOk : Fin n → Bool) :
    IMState n K → IMState n K → Prop
  /-- `has(key)` is false: install own promise and enter `fn` (lines 86,
  91-95, 98 up to its first suspension) — no `await` separates the test from
  the `set`, so this is one step. -/
  | enter (s : IMState n K) (i : Fin n) :
      s.pc i = IMPc.checking → s.locks (key i) = none →
      IMStep key fnOk s
        ⟨Function.update s.pc i IMPc.critical,
         Function.update s.locks (key i) (some i)⟩
  /-- `has(key)` is true: suspend on the stored promise (line 87). -/
  | block (s : IMState n K) (i j : Fin n) :
      s.pc i = IMPc.checking → s.locks (key i) = some j →
      IMStep key fnOk s ⟨Function.update s.pc i (IMPc.waiting j), s.locks⟩
  /-- the critical section settles (resolves or rejects); the `finally` has
  not run yet. -/
  | fnSettle (s : IMState n K) (i : Fin n) :
      s.pc i = IMPc.critical →
      IMStep key fnOk s ⟨Function.update s.pc i IMPc.exiting, s.locks⟩
  /-- the `finally` block: delete the map entry and resolve the promise in
  one synchronous run (lines 100-101); `withLock` then returns `fn`'s
  outcome (`try { return await fn() }` re-throws a rejection). -/
  | release (s : IMState n K) (i : Fin n) :
      s.pc i = IMPc.exiting →
      IMStep key fnOk s
        ⟨Function.update s.pc i (IMPc.done (fnOk i)),
         Function.update s.locks (key i) none⟩
  /-- a waiter resumes after the promise it awaited was resolved, returning
  to the `has(key)` test; thread `j`'s promise is resolved exactly when `j`
  has executed its `finally`, i.e. is `done`. -/
  | wake (s : IMState n K) (i j : Fin n) (b : Bool) :
      s.pc i = IMPc.waiting j → s.pc j = IMPc.done b →
      IMStep key fnOk s ⟨Function.update s.pc i IMPc.checking, s.locks⟩

/-- The initial state: all calls at the `while` test, empty lock map. -/
def IMInit (n : Nat) (K : Type) : IMState n K :=
  ⟨fun _ => IMPc.checking, fun _ => none⟩

/-- States reachable by interleaving the `n` calls from the start. -/
inductive IMReach {n : Nat} {K : Type} [DecidableEq K]
    (key : Fin n → K) (fnOk : Fin n → Bool) : IMState n K → Prop
  | init : IMReach key fnOk (IMInit n K)
  | step {s s' : IMState n K} :
      IMReach key fnOk s → IMStep key fnOk s s' → IMReach key fnOk s'

/-- A call holds its lock while inside `fn` or before its `finally` ran. -/
def IMActive {n : Nat} (p : IMPc n) : Prop :=
  p = IMPc.critical ∨ p = IMPc.exiting

/-- Lock-map/ownership invariant: an active thread's key is occupied by its
own promise, and every map entry belongs to an active thread on that key. -/
def IMInv {n : Nat} {K : Type} (key : Fin n → K) (s : IMState n K) : Prop :=
  (∀ i : Fin n, IMActive (s.pc i) → s.locks (key i) = some i) ∧
  (∀ (k : K) (j : Fin n), s.locks k = some j → key j = k ∧ IMActive (s.pc j))

/-! ### The Redis lock as a timed transition system

For the concurrency claims we also model two concurrent Redis-backed
`withLock` calls ("threads" `0` and `1`) as an interleaving system with an
explicit millisecond clock, so that lock expiry (`PX 30000`) is visible.
Thread `i` locks Redis key `key i` (drawn from two possible keys) and uses
its own index as the owner token, reflecting that the two `lockValue`
strings of line 51 (`Date.now()-Math.random()`) are distinct.  Each Redis
command is one atomic step; arbitrary time may pass between steps
(`advance`).  The Boolean `timely` parameter selects the restricted
semantics in which time never advances past the expiry of a lock whose
holder is still inside `withLock`'s body — i.e. executions where every
critical section completes within the 30-second timeout. -/

/-- Program counter of one Redis-backed `withLock` call. -/
inductive RcPc where
  /-- about to issue the first `SET NX PX` (line 55). -/
  | start
  /-- first acquisition failed; sleeping until `wakeAt` (line 62). -/
  | sleeping (wakeAt : Nat)
  /-- lock acquired, inside `await fn()` (line 73). -/
  | critical
  /-- `fn` settled; the `finally` release (lines 76-79) is pending. -/
  | exiting
  /-- returned to the caller. -/
  | done
  /-- threw `Could not acquire lock` after the failed retry (line 68). -/
  | failed
  deriving DecidableEq

/-- Global state: the clock and, per lock key, the alive-or-expired binding
`(owner token, expiresAt)`, plus both program counters. -/
structure RcState where
  clock : Nat
  lock : Fin 2 → Option (Fin 2 × Nat)
  pc : Fin 2 → RcPc

/-- Redis `GET` of a lock key at time `t`: the owner token when the binding
is alive, `none` when absent or expired. -/
def rcGet (l : Option (Fin 2 × Nat)) (t : Nat) : Option (Fin 2) :=
  match l with
  | some (o, e) => if t < e then some o else none
  | none => none

/-- A call holds (or believes to hold) its lock between acquisition and the
end of its `finally` block. -/
def RcActive (p : RcPc) : Prop :=
  p = RcPc.critical ∨ p = RcPc.exiting

/-- One atomic step of the two-thread Redis lock system. -/
inductive RcStep (key : Fin 2 → Fin 2) (timely : Bool) :
    RcState → RcState → Prop
  /-- time passes.  Under the `timely` semantics it never runs past the
  expiry of a binding whose key belongs to a thread still inside the
  `withLock` body. -/
  | advance (s : RcState) (d : Nat) :
      (timely = true → ∀ i : Fin 2, RcActive (s.pc i) →
        ∀ o e, s.lock (key i) = some (o, e) → s.clock + d < e) →
      RcStep key timely s ⟨s.clock + d, s.lock, s.pc⟩
  /-- first `SET NX PX` succeeds (no alive binding): install own token with
  expiry `now + 30000` and enter the critical section (lines 55-58, 73). -/
  | acquireFirst (s : RcState) (i : Fin 2) :
      s.pc i = RcPc.start → rcGet (s.lock (key i)) s.clock = none →
      RcStep key timely s
        ⟨s.clock, Function.update s.lock (key i) (some (i, s.clock + 30000)),
         Function.update s.pc i RcPc.critical⟩
  /-- first `SET NX PX` fails: schedule the single retry 100ms later
  (lines 60-62). -/
  | contendFirst (s : RcState) (i o : Fin 2) :
      s.pc i = RcPc.start → rcGet (s.lock (key i)) s.clock = some o →
      RcStep key timely s
        ⟨s.clock, s.lock, Function.update s.pc i (RcPc.sleeping (s.clock + 100))⟩
  /-- the retry `SET NX PX` succeeds once the sleep has elapsed
  (lines 63-66). -/
  | acquireRetry (s : RcState) (i : Fin 2) (w : Nat) :
      s.pc i = RcPc.sleeping w → w ≤ s.clock →
      rcGet (s.lock (key i)) s.clock = none →
      RcStep key timely s
        ⟨s.clock, Function.update s.lock (key i) (some (i, s.clock + 30000)),
         Function.update s.pc i RcPc.critical⟩
  /-- the retry also fails: throw `Could not acquire lock for ${key}`
  (lines 67-69); `fn` never runs. -/
  | contendRetry (s : RcState) (i o : Fin 2) (w : Nat) :
      s.pc i = RcPc.sleeping w → w ≤ s.clock →
      rcGet (s.lock (key i)) s.clock = some o →
      RcStep key timely s
        ⟨s.clock, s.lock, Function.update s.pc i RcPc.failed⟩
  /-- the critical section settles. -/
  | fnSettle (s : RcState) (i : Fin 2) :
      s.pc i = RcPc.critical →
      RcStep key timely s
        ⟨s.clock, s.lock, Function.update s.pc i RcPc.exiting⟩
  /-- `finally`: `GET` still returns the caller's own token, so `DEL` the
  key (lines 76-79). -/
  | releaseOwned (s : RcState) (i : Fin 2) :
      s.pc i = RcPc.exiting → rcGet (s.lock (key i)) s.clock = some i →
      RcStep key timely s
        ⟨s.clock, Function.update s.lock (key i) none,
         Function.update s.pc i RcPc.done⟩
  /-- `finally`: the binding expired or belongs to someone else, so leave
  it alone (the guard of line 77 fails). -/
  | releaseStale (s : RcState) (i : Fin 2) :
      s.pc i = RcPc.exiting → rcGet (s.lock (key i)) s.clock ≠ some i →
      RcStep key timely s
        ⟨s.clock, s.lock, Function.update s.pc i RcPc.done⟩

/-- Initial state: clock `0`, no lock bindings, both calls about to issue
their first `SET NX PX`. -/
def rcInit : RcState :=
  ⟨0, fun _ => none, fun _ => RcPc.start⟩

/-- Reachable states of the two-thread Redis lock system. -/
inductive RcReach (key : Fin 2 → Fin 2) (timely : Bool) : RcState → Prop
  | init : RcReach key timely rcInit
  | step {s s' : RcState} :
      RcReach key timely s → RcStep key timely s s' → RcReach key timely s'

/-- Ownership invariant of the timely semantics: a thread inside the
`withLock` body owns an alive binding of its key, under its own token. -/
def RcInv (key : Fin 2 → Fin 2) (s : RcState) : Prop :=
  ∀ i : Fin 2, RcActive (s.pc i) →
    ∃ e, s.lock (key i) = some (i, e) ∧ s.clock < e

/-! ### The lifecycle manager (src/db.js lines 107-245)

The module keeps mutable variables `stateStore`, `sessionStore`,
`requestLock`, `redisClient`, `sqliteDb` and `isInitialized`.  We model the
object-valued variables as `Option Nat`: `none` is JS `undefined`/`null`,
`some id` an object identity drawn from a fresh-identity counter `nextId`
(so "the same instance" is expressible).  Persisted data (the Redis server's
keyspace / the SQLite file's two tables) outlives connections and is carried
along unchanged by the lifecycle operations, which never touch it beyond
`CREATE TABLE IF NOT EXISTS`.

External inputs are modelled by an environment: the `REDIS_URL` variable
(line 120) and whether `redisClient.connect()` (line 130) succeeds, with the
failure message. -/

/-- Deployment environment: `process.env.REDIS_URL` and the outcome of the
Redis connection handshake. -/
structure Env where
  redisUrl : Option String
  redisConnectOk : Bool
  redisErrMsg : String
  deriving DecidableEq, Repr

/-- The module-level mutable state of `src/db.js`. -/
structure DbState where
  isInitialized : Bool
  redisClient : Option Nat
  sqliteDb : Option Nat
  stateStore : Option Nat
  sessionStore : Option Nat
  requestLock : Option Nat
  nextId : Nat
  /-- rows of the `auth_state` table (or the state keys on the Redis
  server); persists across `close`. -/
  authState : RawStore
  /-- rows of the `auth_session` table (or the session keys on the Redis
  server); persists across `close`. -/
  authSession : RawStore
  deriving DecidableEq, Repr

/-- The module state when `src/db.js` is first loaded (lines 107-112),
with persisted data `st`/`se` already on disk or on the Redis server. -/
def dbStart (st se : RawStore) : DbState :=
  ⟨false, none, none, none, none, none, 0, st, se⟩

/-- `initialize()` (lines 115-165).  Returns the new module state and the
call's outcome (`Except.error` models a thrown exception).  An early return
when already initialized (lines 116-118); otherwise the Redis branch
assigns `redisClient` (line 122) *before* connecting, so a failed handshake
(lines 136-139) leaves a client assigned but `isInitialized` false; the
SQLite branch opens the file, creates the tables if absent, and builds the
stores and lock (lines 141-162). -/
def initializeDb (env : Env) (db : DbState) : DbState × Except String Unit :=
  if db.isInitialized then (db, Except.ok ())
  else
    match env.redisUrl with
    | some _ =>
        if env.redisConnectOk then
          ({ db with
              redisClient := some db.nextId,
              stateStore := some (db.nextId + 1),
              sessionStore := some (db.nextId + 2),
              requestLock := some (db.nextId + 3),
              nextId := db.nextId + 4,
              isInitialized := true }, Except.ok ())
        else
          ({ db with redisClient := some db.nextId, nextId := db.nextId + 1 },
           Except.error ("Redis connection failed: " ++ env.redisErrMsg))
    | none =>
        ({ db with
            sqliteDb := some db.nextId,
            stateStore := some (db.nextId + 1),
            sessionStore := some (db.nextId + 2),
            requestLock := some (db.nextId + 3),
            nextId := db.nextId + 4,
            isInitialized := true }, Except.ok ())

/-- `close()` (lines 168-197): early return when not initialized; otherwise
quit/close the connections (errors there are caught and only logged) and
null out every module variable.  Persisted data is untouched. -/
def close (db : DbState) : DbState :=
  if db.isInitialized then
    { db with
        isInitialized := false,
        stateStore := none,
        sessionStore := none,
        requestLock := none,
        redisClient := none,
        sqliteDb := none }
  else db

/-- `healthCheck()` (lines 200-221): `false` when not initialized; probe
the active backend inside `try`/`catch`, reporting `false` on any thrown
error.  `pingOk` / `queryOk` say whether `redisClient.ping()` resp. the
`SELECT 1` statement completes without throwing. -/
def healthCheck (db : DbState) (pingOk queryOk : Bool) : Bool :=
  if !db.isInitialized then false
  else if db.redisClient.isSome then pingOk
  else if db.sqliteDb.isSome then queryOk
  else false

/-- The exception message of the three guarded accessors (lines 229, 235,
241). -/
def notInitializedMsg : String :=
  "Database not initialized. Call initialize() first."

/-- The `stateStore` accessor of `module.exports` (lines 227-232). -/
def stateStoreAccess (db : DbState) : Except String (Option Nat) :=
  if !db.isInitialized then Except.error notInitializedMsg
  else Except.ok db.stateStore

/-- The `sessionStore` accessor (lines 233-238). -/
def sessionStoreAccess (db : DbState) : Except String (Option Nat) :=
  if !db.isInitialized then Except.error notInitializedMsg
  else Except.ok db.sessionStore

/-- The `requestLock` accessor (lines 239-244). -/
def requestLockAccess (db : DbState) : Except String (Option Nat) :=
  if !db.isInitialized then Except.error notInitializedMsg
  else Except.ok db.requestLock

/-- Module states reachable through the exported lifecycle: module load,
then any sequence of `initialize()` (under any environment, succeeding or
not) and `close()` calls. -/
inductive LifeReach : DbState → Prop
  | start (st se : RawStore) : LifeReach (dbStart st se)
  | init {db : DbState} (env : Env) :
      LifeReach db → LifeReach (initializeDb env db).1
  | closeStep {db : DbState} : LifeReach db → LifeReach (close db)

/-! ## Lemmas about the embedded definitions -/

/-! Basic lookup lemmas. -/

theorem alookup_aset_self (s : RawStore) (k v : String) :
    alookup (aset s k v) k = some v := by
  simp [aset, alookup]

theorem imInv_init {n : Nat} {K : Type} (key : Fin n → K) :
    IMInv key (IMInit n K) := by
  constructor
  · intro i hi
    rcases hi with h | h <;> simp [IMInit] at h
  · intro k j hj
    simp [IMInit] at hj

theorem imInv_step {n : Nat} {K : Type} [DecidableEq K]
    {key : Fin n → K} {fnOk : Fin n → Bool} {s s' : IMState n K}
    (hinv : IMInv key s) (hstep : IMStep key fnOk s s') : IMInv key s' := by
  obtain ⟨inv1, inv2⟩ := hinv
  cases hstep with
  | enter i hpc hfree =>
      constructor
      · intro m hm
        by_cases hmi : m = i
        · subst hmi
          simp [Function.update_same]
        · have hm' : IMActive (s.pc m) := by
            simpa [Function.update_noteq hmi] using hm
          have hlk := inv1 m hm'
          have hkm : key m ≠ key i := by
            intro hkeq
            rw [hkeq, hfree] at hlk
            exact Option.noConfusion hlk
          simpa [Function.update_noteq hkm] using hlk
      · intro k j hj
        by_cases hk : k = key i
        · subst hk
          simp [Function.update_same] at hj
          subst hj
          refine ⟨rfl, Or.inl ?_⟩
          simp [Function.update_same]
        · have hj' : s.locks k = some j := by
            simpa [Function.update_noteq hk] using hj
          obtain ⟨hkey, hact⟩ := inv2 k j hj'
          refine ⟨hkey, ?_⟩
          have hji : j ≠ i := by
            intro hje
            subst hje
            rcases hact with h | h <;> rw [hpc] at h <;> exact IMPc.noConfusion h
          simpa [Function.update_noteq hji] using hact
  | block i j hpc hheld =>
      constructor
      · intro m hm
        have hmi : m ≠ i := by
          intro hme
          subst hme
          rcases hm with h | h <;>
            simp [Function.update_same] at h
        have hm' : IMActive (s.pc m) := by
          simpa [Function.update_noteq hmi] using hm
        exact inv1 m hm'
      · intro k m hm
        obtain ⟨hkey, hact⟩ := inv2 k m hm
        refine ⟨hkey, ?_⟩
        have hmi : m ≠ i := by
          intro hme
          subst hme
          rcases hact with h | h <;> rw [hpc] at h <;> exact IMPc.noConfusion h
        simpa [Function.update_noteq hmi] using hact
  | fnSettle i hpc =>
      constructor
      · intro m hm
        by_cases hmi : m = i
        · subst hmi
          exact inv1 m (Or.inl hpc)
        · have hm' : IMActive (s.pc m) := by
            simpa [Function.update_noteq hmi] using hm
          exact inv1 m hm'
      · intro k m hm
        obtain ⟨hkey, hact⟩ := inv2 k m hm
        refine ⟨hkey, ?_⟩
        by_cases hmi : m = i
        · subst hmi
          right
          simp [Function.update_same]
        · simpa [Function.update_noteq hmi] using hact
  | release i hpc =>
      constructor
      · intro m hm
        have hmi : m ≠ i := by
          intro hme
          subst hme
          rcases hm with h | h <;>
            simp [Function.update_same] at h
        have hm' : IMActive (s.pc m) := by
          simpa [Function.update_noteq hmi] using hm
        have hlk := inv1 m hm'
        have hkm : key m ≠ key i := by
          intro hkeq
          have hown := inv1 i (Or.inr hpc)
          rw [hkeq] at hlk
          rw [hlk] at hown
          exact hmi (Option.some.inj hown)
        simpa [Function.update_noteq hkm] using hlk
      · intro k m hm
        by_cases hk : k = key i
        · subst hk
          simp [Function.update_same] at hm
        · have hm' : s.locks k = some m := by
            simpa [Function.update_noteq hk] using hm
          obtain ⟨hkey, hact⟩ := inv2 k m hm'
          refine ⟨hkey, ?_⟩
          have hmi : m ≠ i := by
            intro hme
            subst hme
            exact hk hkey.symm
          simpa [Function.update_noteq hmi] using hact
  | wake i j b hpci hpcj =>
      constructor
      · intro m hm
        have hmi : m ≠ i := by
          intro hme
          subst hme
          rcases hm with h | h <;>
            simp [Function.update_same] at h
        have hm' : IMActive (s.pc m) := by
          simpa [Function.update_noteq hmi] using hm
        exact inv1 m hm'
      · intro k m hm
        obtain ⟨hkey, hact⟩ := inv2 k m hm
        refine ⟨hkey, ?_⟩
        have hmi : m ≠ i := by
          intro hme
          subst hme
          rcases hact with h | h <;> rw [hpci] at h <;> exact IMPc.noConfusion h
        simpa [Function.update_noteq hmi] using hact

theorem imReach_inv {n : Nat} {K : Type} [DecidableEq K]
    {key : Fin n → K} {fnOk : Fin n → Bool} {s : IMState n K}
    (h : IMReach key fnOk s) : IMInv key s := by
  induction h with
  | init => exact imInv_init key
  | step _ hstep ih => exact imInv_step ih hstep

/-- Mutual exclusion of the in-memory lock: two concurrent calls on the same
key are never simultaneously inside their critical sections. -/
theorem im_mutex {n : Nat} {K : Type} [DecidableEq K]
    {key : Fin n → K} {fnOk : Fin n → Bool} {s : IMState n K}
    (h : IMReach key fnOk s) {i j : Fin n} (hij : i ≠ j)
    (hkey : key i = key j) :
    ¬(s.pc i = IMPc.critical ∧ s.pc j = IMPc.critical) := by
  rintro ⟨hi, hj⟩
  obtain ⟨inv1, _⟩ := imReach_inv h
  have h1 := inv1 i (Or.inl hi)
  have h2 := inv1 j (Or.inl hj)
  rw [hkey, h2] at h1
  exact hij (Option.some.inj h1).symm

theorem rcInv_init (key : Fin 2 → Fin 2) : RcInv key rcInit := by
  intro i hi
  rcases hi with h | h <;> simp [rcInit] at h

theorem rcInv_step {key : Fin 2 → Fin 2} {s s' : RcState}
    (hinv : RcInv key s) (hstep : RcStep key true s s') : RcInv key s' := by
  cases hstep with
  | advance d hcond =>
      intro i hi
      obtain ⟨e, hl, _⟩ := hinv i hi
      exact ⟨e, hl, hcond rfl i hi i e hl⟩
  | acquireFirst i hpc hfree =>
      intro m hm
      by_cases hmi : m = i
      · subst hmi
        refine ⟨s.clock + 30000, ?_, ?_⟩
        · simp [Function.update_same]
        · show s.clock < s.clock + 30000
          omega
      · have hm' : RcActive (s.pc m) := by
          simpa [Function.update_noteq hmi] using hm
        obtain ⟨e, hl, he⟩ := hinv m hm'
        have hkm : key m ≠ key i := by
          intro hkeq
          rw [hkeq] at hl
          rw [hl] at hfree
          simp [rcGet, he] at hfree
        exact ⟨e, by simpa [Function.update_noteq hkm] using hl, he⟩
  | contendFirst i o hpc hheld =>
      intro m hm
      have hmi : m ≠ i := by
        intro hme
        subst hme
        rcases hm with h | h <;> simp [Function.update_same] at h
      have hm' : RcActive (s.pc m) := by
        simpa [Function.update_noteq hmi] using hm
      exact hinv m hm'
  | acquireRetry i w hpc hw hfree =>
      intro m hm
      by_cases hmi : m = i
      · subst hmi
        refine ⟨s.clock + 30000, ?_, ?_⟩
        · simp [Function.update_same]
        · show s.clock < s.clock + 30000
          omega
      · have hm' : RcActive (s.pc m) := by
          simpa [Function.update_noteq hmi] using hm
        obtain ⟨e, hl, he⟩ := hinv m hm'
        have hkm : key m ≠ key i := by
          intro hkeq
          rw [hkeq] at hl
          rw [hl] at hfree
          simp [rcGet, he] at hfree
        exact ⟨e, by simpa [Function.update_noteq hkm] using hl, he⟩
  | contendRetry i o w hpc hw hheld =>
      intro m hm
      have hmi : m ≠ i := by
        intro hme
        subst hme
        rcases hm with h | h <;> simp [Function.update_same] at h
      have hm' : RcActive (s.pc m) := by
        simpa [Function.update_noteq hmi] using hm
      exact hinv m hm'
  | fnSettle i hpc =>
      intro m hm
      by_cases hmi : m = i
      · subst hmi
        exact hinv m (Or.inl hpc)
      · have hm' : RcActive (s.pc m) := by
          simpa [Function.update_noteq hmi] using hm
        exact hinv m hm'
  | releaseOwned i hpc hown =>
      intro m hm
      have hmi : m ≠ i := by
        intro hme
        subst hme
        rcases hm with h | h <;> simp [Function.update_same] at h
      have hm' : RcActive (s.pc m) := by
        simpa [Function.update_noteq hmi] using hm
      obtain ⟨e, hl, he⟩ := hinv m hm'
      have hkm : key m ≠ key i := by
        intro hkeq
        obtain ⟨e', hl', he'⟩ := hinv i (Or.inr hpc)
        rw [hkeq, hl'] at hl
        exact hmi (Prod.ext_iff.mp (Option.some.inj hl)).1.symm
      exact ⟨e, by simpa [Function.update_noteq hkm] using hl, he⟩
  | releaseStale i hpc hstale =>
      intro m hm
      have hmi : m ≠ i := by
        intro hme
        subst hme
        rcases hm with h | h <;> simp [Function.update_same] at h
      have hm' : RcActive (s.pc m) := by
        simpa [Function.update_noteq hmi] using hm
      exact hinv m hm'

theorem rcReach_inv {key : Fin 2 → Fin 2} {s : RcState}
    (h : RcReach key true s) : RcInv key s := by
  induction h with
  | init => exact rcInv_init key
  | step _ hstep ih => exact rcInv_step ih hstep

/-- Mutual exclusion of the Redis lock under the timely semantics: if no
lock expires while its holder is still inside the `withLock` body, two
calls on the same key are never simultaneously in their critical
sections. -/
theorem rc_mutex_timely {key : Fin 2 → Fin 2} {s : RcState}
    (h : RcReach key true s) {i j : Fin 2} (hij : i ≠ j)
    (hkey : key i = key j) :
    ¬(s.pc i = RcPc.critical ∧ s.pc j = RcPc.critical) := by
  rintro ⟨hi, hj⟩
  have hinv := rcReach_inv h
  obtain ⟨e, hl, _⟩ := hinv i (Or.inl hi)
  obtain ⟨e', hl', _⟩ := hinv j (Or.inl hj)
  rw [hkey, hl'] at hl
  exact hij (Prod.ext_iff.mp (Option.some.inj hl)).1.symm

/-- Along the exported lifecycle, `isInitialized` implies all three store
variables are populated: the accessors can never hand out a null store. -/
theorem lifeReach_stores_assigned {db : DbState} (h : LifeReach db) :
    db.isInitialized = true →
    db.stateStore.isSome ∧ db.sessionStore.isSome ∧ db.requestLock.isSome := by
  induction h with
  | start st se => intro hinit; simp [dbStart] at hinit
  | init env hr ih =>
      intro hinit
      rename_i db
      unfold initializeDb at hinit ⊢
      by_cases hi : db.isInitialized
      · simp only [if_pos hi] at hinit ⊢
        exact ih hinit
      · simp only [if_neg hi] at hinit ⊢
        cases henv : env.redisUrl with
        | some url =>
            simp only [henv] at hinit ⊢
            by_cases hok : env.redisConnectOk
            · simp [hok]
            · simp [hok] at hinit
              exact absurd hinit hi
        | none =>
            simp only [henv] at hinit ⊢
            simp
  | closeStep hr ih =>
      intro hinit
      rename_i db
      unfold close at hinit ⊢
      by_cases hi : db.isInitialized
      · simp only [if_pos hi] at hinit
        simp at hinit
      · simp only [if_neg hi] at hinit ⊢
        exact ih hinit

theorem alookup_aremove_self (s : RawStore) (k : String) :
    alookup (aremove s k) k = none := by
  induction s with
  | nil => rfl
  | cons p rest ih =>
      rcases p with ⟨k', v'⟩
      by_cases h : k' = k
      · simp [aremove, List.filter, h] at ih ⊢
        exact ih
      · simpa [aremove, List.filter, h, alookup] using ih

theorem llookup_lremove_self (s : LockSpace) (k : String) :
    llookup (lremove s k) k = none := by
  induction s with
  | nil => rfl
  | cons p rest ih =>
      rcases p with ⟨k', e'⟩
      by_cases h : k' = k
      · simp [lremove, List.filter, h] at ih ⊢
        exact ih
      · simpa [lremove, List.filter, h, llookup] using ih

theorem lsetNxPx_fail {s : LockSpace} {t : Nat} {k v : String} {px : Nat}
    (h : (lsetNxPx s t k v px).1 = false) : (lsetNxPx s t k v px).2 = s := by
  unfold lsetNxPx at h ⊢
  cases hg : lget s t k <;> simp [hg] at h ⊢

theorem lget_lremove_self (s : LockSpace) (t : Nat) (k : String) :
    lget (lremove s k) t k = none := by
  unfold lget
  rw [llookup_lremove_self]

theorem initializeDb_noop {env : Env} {db : DbState}
    (hi : db.isInitialized = true) :
    initializeDb env db = (db, Except.ok ()) := by
  unfold initializeDb
  rw [if_pos hi]

theorem initializeDb_ok_initialized {env : Env} {db : DbState}
    (hok : (initializeDb env db).2 = Except.ok ()) :
    (initializeDb env db).1.isInitialized = true := by
  unfold initializeDb at hok ⊢
  by_cases hi : db.isInitialized
  · simp only [if_pos hi]
    exact hi
  · simp only [if_neg hi] at hok ⊢
    cases henv : env.redisUrl with
    | some url =>
        simp only [henv] at hok ⊢
        by_cases hc : env.redisConnectOk
        · simp [hc]
        · simp [hc] at hok
    | none => simp [henv]

theorem initializeDb_error_not_initialized {env : Env} {db : DbState}
    {m : String} (herr : (initializeDb env db).2 = Except.error m) :
    (initializeDb env db).1.isInitialized = false := by
  unfold initializeDb at herr ⊢
  by_cases hi : db.isInitialized
  · simp [hi] at herr
  · simp only [if_neg hi] at herr ⊢
    cases henv : env.redisUrl with
    | some url =>
        simp only [henv] at herr ⊢
        by_cases hc : env.redisConnectOk
        · simp [hc] at herr
        · simp only [if_neg hc]
          simpa using Bool.of_not_eq_true hi
    | none =>
        simp [henv] at herr

theorem close_not_initialized (db : DbState) :
    (close db).isInitialized = false := by
  unfold close
  cases hb : db.isInitialized
  · simp [hb]
  · simp [hb]

theorem lifeReach_backend {db : DbState} (h : LifeReach db) :
    db.isInitialized = true →
    db.redisClient.isSome = true ∨ db.sqliteDb.isSome = true := by
  induction h with
  | start st se => intro hinit; simp [dbStart] at hinit
  | init env hr ih =>
      intro hinit
      rename_i db
      unfold initializeDb at hinit ⊢
      by_cases hi : db.isInitialized
      · simp only [if_pos hi] at hinit ⊢
        exact ih hinit
      · simp only [if_neg hi] at hinit ⊢
        cases henv : env.redisUrl with
        | some url =>
            simp only [henv] at hinit ⊢
            by_cases hok : env.redisConnectOk
            · simp [hok]
            · simp [hok] at hinit
              exact absurd hinit hi
        | none =>
            simp only [henv] at hinit ⊢
            simp
  | closeStep hr ih =>
      intro hinit
      rw [close_not_initialized] at hinit
      exact absurd hinit (by simp)

/-! ## The claims -/

/-- C2: after initialization, `set(k, v)` followed by `get(k)` on the same
store returns a value deeply equal to `v`, in both the SQLite and the Redis
backend — for every key and every JSON-serializable value, where
JSON-serializability of `v` enters as the two properties `JSON.stringify` /
`JSON.parse` guarantee for such values: the serialization parses back to an
equal value and is a non-empty string. -/
theorem store_set_get_roundtrip {V : Type} (ser : Serializer V)
    (rs ss : RawStore) (k : String) (v : V)
    (hrt : ser.parse (ser.stringify v) = Except.ok v)
    (hne : ser.stringify v ≠ "") :
    RedisStore.get ser (RedisStore.set ser rs k v) k = Except.ok (some v) ∧
    SqliteStore.get ser (SqliteStore.set ser ss k v) k = Except.ok (some v) := by
  constructor
  · unfold RedisStore.get RedisStore.set
    rw [alookup_aset_self]
    simp [hne, hrt, Except.map]
  · unfold SqliteStore.get SqliteStore.set
    rw [alookup_aset_self]
    simp [hrt, Except.map]

/-- Witness for C2: concrete round-trip in both backends. -/
theorem store_set_get_roundtrip_witness :
    RedisStore.get boolSer (RedisStore.set boolSer [] "did:plc:x" true)
      "did:plc:x" = Except.ok (some true) ∧
    SqliteStore.get boolSer (SqliteStore.set boolSer [] "did:plc:x" true)
      "did:plc:x" = Except.ok (some true) :=
  store_set_get_roundtrip boolSer [] [] "did:plc:x" true (by decide) (by decide)

/-- C5: `get(k)` on a key with no stored binding (never written), and
`get(k)` right after `del(k)`, returns the not-found sentinel `undefined`
(`Except.ok none` — a return, not a thrown exception), in both backends. -/
theorem get_absent_returns_undefined {V : Type} (ser : Serializer V)
    (s : RawStore) (k : String) :
    (alookup s k = none → RedisStore.get ser s k = Except.ok none) ∧
    (alookup s k = none → SqliteStore.get ser s k = Except.ok none) ∧
    RedisStore.get ser (RedisStore.del s k) k = Except.ok none ∧
    SqliteStore.get ser (SqliteStore.del s k) k = Except.ok none := by
  refine ⟨?_, ?_, ?_, ?_⟩
  · intro h
    unfold RedisStore.get
    rw [h]
  · intro h
    unfold SqliteStore.get
    rw [h]
  · unfold RedisStore.get RedisStore.del
    rw [alookup_aremove_self]
  · unfold SqliteStore.get SqliteStore.del
    rw [alookup_aremove_self]

/-- Witness for C5: concrete miss on a never-written key and on a deleted
key. -/
theorem get_absent_returns_undefined_witness :
    RedisStore.get boolSer [("other", "true")] "missing" = Except.ok none ∧
    SqliteStore.get boolSer (SqliteStore.del [("k1", "true")] "k1") "k1" =
      Except.ok none :=
  ⟨(get_absent_returns_undefined boolSer [("other", "true")] "missing").1
      (by decide),
   (get_absent_returns_undefined boolSer [("k1", "true")] "k1").2.2.2⟩

/-- C8 counterexample: the empty raw string is not valid JSON
(`JSON.parse("")` throws `Unexpected end of JSON input`), yet the
Redis-backend `get` of a key storing `""` returns `undefined` instead of
propagating the deserialization error: the JS truthiness test of line 15
(`val ? JSON.parse(val) : undefined`) routes the empty string — which is
falsy — into the `undefined` branch without ever calling `JSON.parse`. -/
theorem redis_get_swallows_empty_raw :
    boolSer.parse "" =
      Except.error "SyntaxError: Unexpected end of JSON input" ∧
    RedisStore.get boolSer [("sess:alice", "")] "sess:alice" =
      Except.ok none := by
  constructor <;> decide

/-- C8 (amended): a stored raw string that fails to parse makes `get`
propagate the deserialization error to the caller in the SQLite backend
unconditionally, and in the Redis backend whenever the raw string is
non-empty; for a stored empty string (which `set` itself never produces,
since JSON serializations are non-empty) the Redis `get` instead returns
`undefined` without error. -/
theorem parse_error_propagation {V : Type} (ser : Serializer V)
    (s : RawStore) (k raw e : String) :
    (alookup s k = some raw → ser.parse raw = Except.error e →
        SqliteStore.get ser s k = Except.error e) ∧
    (alookup s k = some raw → raw ≠ "" → ser.parse raw = Except.error e →
        RedisStore.get ser s k = Except.error e) ∧
    (alookup s k = some "" → RedisStore.get ser s k = Except.ok none) := by
  refine ⟨?_, ?_, ?_⟩
  · intro h hp
    unfold SqliteStore.get
    rw [h]
    simp [hp, Except.map]
  · intro h hne hp
    unfold RedisStore.get
    rw [h]
    simp [hne, hp, Except.map]
  · intro h
    unfold RedisStore.get
    rw [h]
    simp

/-- Witness for C8 (amended): a malformed stored string propagates from
both backends at a concrete store. -/
theorem parse_error_propagation_witness :
    SqliteStore.get boolSer [("sess", "tru")] "sess" =
      Except.error "SyntaxError: Unexpected end of JSON input" ∧
    RedisStore.get boolSer [("sess", "tru")] "sess" =
      Except.error "SyntaxError: Unexpected end of JSON input" :=
  ⟨(parse_error_propagation boolSer [("sess", "tru")] "sess" "tru"
      "SyntaxError: Unexpected end of JSON input").1 (by decide) (by decide),
   (parse_error_propagation boolSer [("sess", "tru")] "sess" "tru"
      "SyntaxError: Unexpected end of JSON input").2.1 (by decide) (by decide)
      (by decide)⟩

/-- C3: the Redis `withLock` release is compare-and-delete on the owner
token.  After a successful acquisition, whatever the critical section and
the outside world did to the keyspace: if at release time the lock key
holds a *different* owner token `w` (the expiry-then-second-acquirer
scenario), the whole keyspace — in particular the second acquirer's entry —
is left untouched; the key is deleted exactly when its current value still
equals the token this call wrote. -/
theorem redis_release_compare_and_delete {A : Type} (key lockValue : String)
    (fnRun : Nat → LockSpace → Except String A × Nat × LockSpace)
    (sleepEff : LockSpace → LockSpace) (t0 : Nat) (s0 : LockSpace)
    (hacq : (lsetNxPx s0 t0 ("lock:" ++ key) lockValue 30000).1 = true) :
    (∀ r t2 s2 w,
        fnRun t0 (lsetNxPx s0 t0 ("lock:" ++ key) lockValue 30000).2 =
          (r, t2, s2) →
        lget s2 t2 ("lock:" ++ key) = some w → w ≠ lockValue →
        redisWithLock key lockValue fnRun sleepEff t0 s0 = (r, t2, s2)) ∧
    (∀ r t2 s2,
        fnRun t0 (lsetNxPx s0 t0 ("lock:" ++ key) lockValue 30000).2 =
          (r, t2, s2) →
        lget s2 t2 ("lock:" ++ key) = some lockValue →
        redisWithLock key lockValue fnRun sleepEff t0 s0 =
          (r, t2, ldel s2 ("lock:" ++ key))) := by
  constructor
  · intro r t2 s2 w hrun hcur hw
    unfold redisWithLock
    simp only [hacq, if_true, hrun]
    unfold redisRelease
    rw [hcur]
    simp [hw]
  · intro r t2 s2 hrun hcur
    unfold redisWithLock
    simp only [hacq, if_true, hrun]
    unfold redisRelease
    rw [hcur]
    simp

/-- Witness for C3: a concrete run in which the lock expires during the
critical section, a second acquirer installs token `"tok1"`, and the first
holder's release leaves that entry in place. -/
theorem redis_release_compare_and_delete_witness :
    redisWithLock "did:plc:x" "tok0"
      (fun _ _ => (Except.ok 7, 40000, [("lock:did:plc:x", ⟨"tok1", 70000⟩)]))
      id 0 [] =
      (Except.ok 7, 40000, [("lock:did:plc:x", ⟨"tok1", 70000⟩)]) :=
  (redis_release_compare_and_delete "did:plc:x" "tok0"
      (fun _ _ => (Except.ok 7, 40000, [("lock:did:plc:x", ⟨"tok1", 70000⟩)]))
      id 0 [] (by decide)).1
    (Except.ok 7) 40000 [("lock:did:plc:x", ⟨"tok1", 70000⟩)] "tok1"
    rfl (by decide) (by decide)

/-- C4: when the first `SET NX` acquisition of `lock:k` fails, the Redis
`withLock` performs exactly one retry, at exactly `t0 + 100` (the fixed
100ms delay); if the retry also fails, the call returns the thrown
`Could not acquire lock for ${k}` at time `t0 + 100`, with the keyspace
showing only the outside world's sleep-time effects — for *every* critical
section `fn`, which therefore never ran — and with no further retries; if
the retry succeeds, `fn` runs, started at `t0 + 100`. -/
theorem redis_lock_single_retry {A : Type} (key lockValue : String)
    (sleepEff : LockSpace → LockSpace) (t0 : Nat) (s0 : LockSpace)
    (hfail1 : (lsetNxPx s0 t0 ("lock:" ++ key) lockValue 30000).1 = false) :
    ((lsetNxPx (sleepEff s0) (t0 + 100) ("lock:" ++ key) lockValue
        30000).1 = false →
      ∀ fnRun : Nat → LockSpace → Except String A × Nat × LockSpace,
        redisWithLock key lockValue fnRun sleepEff t0 s0 =
          (Except.error ("Could not acquire lock for " ++ key), t0 + 100,
            sleepEff s0)) ∧
    (∀ fnRun : Nat → LockSpace → Except String A × Nat × LockSpace,
      ∀ r t2 s2,
        (lsetNxPx (sleepEff s0) (t0 + 100) ("lock:" ++ key) lockValue
          30000).1 = true →
        fnRun (t0 + 100)
          (lsetNxPx (sleepEff s0) (t0 + 100) ("lock:" ++ key) lockValue
            30000).2 = (r, t2, s2) →
        redisWithLock key lockValue fnRun sleepEff t0 s0 =
          redisRelease ("lock:" ++ key) lockValue r t2 s2) := by
  have hkeep := lsetNxPx_fail hfail1
  constructor
  · intro hfail2 fnRun
    unfold redisWithLock
    simp only [hkeep, hfail1, hfail2]
    simp
    exact lsetNxPx_fail hfail2
  · intro fnRun r t2 s2 hret hrun
    unfold redisWithLock
    simp only [hkeep, hfail1, hret, hrun]
    simp

/-- Witness for C4: a concrete doubly-contended run ends in the
`Could not acquire lock` error at `t0 + 100` without running `fn`. -/
theorem redis_lock_single_retry_witness :
    redisWithLock "did:plc:x" "tok0"
      (fun t s => ((Except.ok 9 : Except String Nat), t, s)) id 5
      [("lock:did:plc:x", ⟨"tok9", 99999⟩)] =
      (Except.error "Could not acquire lock for did:plc:x", 105,
        [("lock:did:plc:x", ⟨"tok9", 99999⟩)]) :=
  (redis_lock_single_retry "did:plc:x" "tok0" id 5
      [("lock:did:plc:x", ⟨"tok9", 99999⟩)] (by decide)).1 (by decide)
    (fun t s => (Except.ok 9, t, s))

/-- C9: `initialize()` is idempotent after success.  A call on an
already-initialized module returns without error and changes nothing: the
same record comes back — same connections, same three store/lock instances
(by identity), same persisted data.  And every successful call leaves the
module initialized, so all later calls hit exactly that no-op path. -/
theorem initialize_idempotent :
    (∀ (env : Env) (db : DbState), db.isInitialized = true →
        initializeDb env db = (db, Except.ok ())) ∧
    (∀ (env : Env) (db : DbState),
        (initializeDb env db).2 = Except.ok () →
        (initializeDb env db).1.isInitialized = true) := by
  constructor
  · intro env db hi
    exact initializeDb_noop hi
  · intro env db hok
    exact initializeDb_ok_initialized hok

/-- Witness for C9: a concrete second `initialize()` on the SQLite branch
returns the state of the first one unchanged, without error. -/
theorem initialize_idempotent_witness :
    initializeDb ⟨none, true, ""⟩
        (initializeDb ⟨none, true, ""⟩ (dbStart [] [])).1 =
      ((initializeDb ⟨none, true, ""⟩ (dbStart [] [])).1, Except.ok ()) :=
  initialize_idempotent.1 ⟨none, true, ""⟩
    (initializeDb ⟨none, true, ""⟩ (dbStart [] [])).1 (by decide)

/-- C6: `healthCheck()` returns `true` after a successful `initialize()`
with the backend probe responsive, returns `false` after `close()`
(whatever the probes would say), and any backend failure during the probe
is caught and reported as `false` — the function always returns a Boolean
rather than throwing. -/
theorem healthCheck_contract :
    (∀ (env : Env) (db : DbState), LifeReach db →
        (initializeDb env db).2 = Except.ok () →
        healthCheck (initializeDb env db).1 true true = true) ∧
    (∀ (db : DbState) (p q : Bool), healthCheck (close db) p q = false) ∧
    (∀ db : DbState, healthCheck db false false = false) := by
  refine ⟨?_, ?_, ?_⟩
  · intro env db hlife hok
    have hinit := initializeDb_ok_initialized hok
    have hback := lifeReach_backend (LifeReach.init env hlife) hinit
    unfold healthCheck
    by_cases hr : (initializeDb env db).1.redisClient.isSome
    · simp [hinit, hr]
    · rcases hback with hb | hb
      · exact absurd hb hr
      · simp [hinit, hr, hb]
  · intro db p q
    unfold healthCheck
    simp [close_not_initialized db]
  · intro db
    unfold healthCheck
    by_cases h1 : db.isInitialized
    · simp only [h1]
      by_cases h2 : db.redisClient.isSome
      · simp [h2]
      · by_cases h3 : db.sqliteDb.isSome
        · simp [h2, h3]
        · simp [h2, h3]
    · simp [h1]

/-- Witness for C6: concrete SQLite-branch lifecycle — healthy after
initialization, unhealthy after close, unhealthy under failing probes. -/
theorem healthCheck_contract_witness :
    healthCheck (initializeDb ⟨none, true, "m"⟩ (dbStart [] [])).1 true true =
      true ∧
    healthCheck (close (dbStart [] [])) true true = false ∧
    healthCheck (dbStart [] []) false false = false :=
  ⟨healthCheck_contract.1 ⟨none, true, "m"⟩ (dbStart [] [])
      (LifeReach.start [] []) (by decide),
   healthCheck_contract.2.1 (dbStart [] []) true true,
   healthCheck_contract.2.2 (dbStart [] [])⟩

/-- C7: each of the three accessors throws the explicit
`Database not initialized. Call initialize() first.` exception whenever the
module is not initialized — which is exactly the situation at module load,
after a failed `initialize()`, and at any time after `close()` until a
re-initialization — and an accessor that does return never yields a null
store along the exported lifecycle. -/
theorem accessor_guard :
    (∀ db : DbState, db.isInitialized = false →
        stateStoreAccess db = Except.error notInitializedMsg ∧
        sessionStoreAccess db = Except.error notInitializedMsg ∧
        requestLockAccess db = Except.error notInitializedMsg) ∧
    (∀ st se : RawStore, (dbStart st se).isInitialized = false) ∧
    (∀ db : DbState, (close db).isInitialized = false) ∧
    (∀ (env : Env) (db : DbState) (m : String),
        (initializeDb env db).2 = Except.error m →
        (initializeDb env db).1.isInitialized = false) ∧
    (∀ (db : DbState) (v : Option Nat), LifeReach db →
        stateStoreAccess db = Except.ok v ∨
          sessionStoreAccess db = Except.ok v ∨
          requestLockAccess db = Except.ok v →
        v.isSome = true) := by
  refine ⟨?_, ?_, ?_, ?_, ?_⟩
  · intro db h
    refine ⟨?_, ?_, ?_⟩ <;>
      simp [stateStoreAccess, sessionStoreAccess, requestLockAccess, h]
  · intro st se
    rfl
  · intro db
    exact close_not_initialized db
  · intro env db m herr
    exact initializeDb_error_not_initialized herr
  · intro db v hlife hacc
    by_cases hi : db.isInitialized
    · have hstores := lifeReach_stores_assigned hlife hi
      rcases hacc with h | h | h
      · unfold stateStoreAccess at h
        rw [hi] at h
        simp at h
        rw [← h]
        exact hstores.1
      · unfold sessionStoreAccess at h
        rw [hi] at h
        simp at h
        rw [← h]
        exact hstores.2.1
      · unfold requestLockAccess at h
        rw [hi] at h
        simp at h
        rw [← h]
        exact hstores.2.2
    · have hf : db.isInitialized = false := Bool.of_not_eq_true hi
      rcases hacc with h | h | h <;>
        simp [stateStoreAccess, sessionStoreAccess, requestLockAccess, hf] at h

/-- Witness for C7: the accessors reject a freshly-loaded module and a
closed module with the exact exception message. -/
theorem accessor_guard_witness :
    stateStoreAccess (dbStart [] []) = Except.error notInitializedMsg ∧
    requestLockAccess
        (close (initializeDb ⟨none, true, ""⟩ (dbStart [] [])).1) =
      Except.error notInitializedMsg :=
  ⟨(accessor_guard.1 (dbStart [] []) (by decide)).1,
   (accessor_guard.1
      (close (initializeDb ⟨none, true, ""⟩ (dbStart [] [])).1)
      (by decide)).2.2⟩

/-- C1 (amended): same-key mutual exclusion holds unconditionally for the
in-memory lock (any number of concurrent calls, any keys), and for the
Redis lock in every execution in which no lock expires while its holder is
still inside the `withLock` body — i.e. whenever critical sections complete
within the 30-second `PX` timeout; if a critical section outlives the
timeout a second same-key acquirer may overlap it (see the counterexample).
Calls with two different keys can overlap in both implementations. -/
theorem withLock_mutual_exclusion :
    (∀ (n : Nat) (K : Type) [DecidableEq K] (key : Fin n → K)
        (fnOk : Fin n → Bool) (s : IMState n K), IMReach key fnOk s →
        ∀ i j : Fin n, i ≠ j → key i = key j →
        ¬(s.pc i = IMPc.critical ∧ s.pc j = IMPc.critical)) ∧
    (∀ (key : Fin 2 → Fin 2) (s : RcState), RcReach key true s →
        ∀ i j : Fin 2, i ≠ j → key i = key j →
        ¬(s.pc i = RcPc.critical ∧ s.pc j = RcPc.critical)) ∧
    (∃ s : IMState 2 (Fin 2), IMReach (fun i => i) (fun _ => true) s ∧
        s.pc 0 = IMPc.critical ∧ s.pc 1 = IMPc.critical) ∧
    (∃ s : RcState, RcReach (fun i => i) true s ∧
        s.pc 0 = RcPc.critical ∧ s.pc 1 = RcPc.critical) := by
  refine ⟨?_, ?_, ?_, ?_⟩
  · intro n K instK key fnOk s h i j hij hkey
    exact im_mutex h hij hkey
  · intro key s h i j hij hkey
    exact rc_mutex_timely h hij hkey
  · exact ⟨_, IMReach.step (IMReach.step IMReach.init
      (IMStep.enter _ 0 (by decide) (by decide)))
      (IMStep.enter _ 1 (by decide) (by decide)), by decide, by decide⟩
  · exact ⟨_, RcReach.step (RcReach.step RcReach.init
      (RcStep.acquireFirst _ 0 (by decide) (by decide)))
      (RcStep.acquireFirst _ 1 (by decide) (by decide)), by decide, by decide⟩

/-- Witness for C1: the mutual-exclusion component applied at a concrete
reachable state of the two-call in-memory system. -/
theorem withLock_mutual_exclusion_witness :
    ¬((IMInit 2 (Fin 2)).pc 0 = IMPc.critical ∧
      (IMInit 2 (Fin 2)).pc 1 = IMPc.critical) :=
  withLock_mutual_exclusion.1 2 (Fin 2) (fun _ => 0) (fun _ => true)
    (IMInit 2 (Fin 2)) IMReach.init 0 1 (by decide) rfl

/-- C1 counterexample: in the Redis implementation the claimed guarantee
fails once real time is taken into account — call 0 acquires `lock:k` at
time 0, 30000ms pass while its critical section is still running, the lock
expires, and call 1's `SET NX` then succeeds: the model reaches a state
with *both* same-key calls inside their critical sections, refuting "the
critical sections f1 and f2 never execute overlapping in time ... in either
lock implementation" as stated. -/
theorem withLock_overlap_counterexample :
    ∃ s : RcState, RcReach (fun _ => 0) false s ∧
      s.pc 0 = RcPc.critical ∧ s.pc 1 = RcPc.critical :=
  ⟨_, RcReach.step (RcReach.step (RcReach.step RcReach.init
      (RcStep.acquireFirst _ 0 (by decide) (by decide)))
      (RcStep.advance _ 30000 (by simp)))
      (RcStep.acquireFirst _ 1 (by decide) (by decide)), by decide, by decide⟩

/-- C10: a critical section that throws still releases the lock, the same
error propagates to `withLock`'s caller, and a subsequent same-key
`withLock` can acquire.  Redis variant: when `fn` rejects with `e` and the
call still owns the lock at release time, `withLock` returns that same
error, the lock key is deleted, and any later `SET NX` acquisition of it
succeeds.  In-memory variant: the two-call model reaches a state where call
0 has returned with `fn`'s rejection re-thrown (`done false`) — its map
entry deleted and its promise resolved by the `finally` — and call 1 on the
same key has acquired and sits inside its critical section. -/
theorem withLock_error_releases_lock :
    (∀ (A : Type) (key lockValue : String)
        (fnRun : Nat → LockSpace → Except String A × Nat × LockSpace)
        (sleepEff : LockSpace → LockSpace) (t0 : Nat) (s0 : LockSpace)
        (e : String) (t2 : Nat) (s2 : LockSpace),
        (lsetNxPx s0 t0 ("lock:" ++ key) lockValue 30000).1 = true →
        fnRun t0 (lsetNxPx s0 t0 ("lock:" ++ key) lockValue 30000).2 =
          (Except.error e, t2, s2) →
        lget s2 t2 ("lock:" ++ key) = some lockValue →
        redisWithLock key lockValue fnRun sleepEff t0 s0 =
          (Except.error e, t2, ldel s2 ("lock:" ++ key)) ∧
        (∀ (t3 : Nat) (g : String),
          (lsetNxPx (ldel s2 ("lock:" ++ key)) t3 ("lock:" ++ key) g
            30000).1 = true)) ∧
    (∃ s : IMState 2 (Fin 1), IMReach (fun _ => 0) (fun _ => false) s ∧
        s.pc 0 = IMPc.done false ∧ s.pc 1 = IMPc.critical) := by
  constructor
  · intro A key lockValue fnRun sleepEff t0 s0 e t2 s2 hacq hrun hcur
    constructor
    · unfold redisWithLock
      simp only [hacq, if_true, hrun]
      unfold redisRelease
      rw [hcur]
      simp
    · intro t3 g
      simp [lsetNxPx, ldel, lget_lremove_self]
  · exact ⟨_, IMReach.step (IMReach.step (IMReach.step (IMReach.step
      IMReach.init
      (IMStep.enter _ 0 (by decide) (by decide)))
      (IMStep.fnSettle _ 0 (by decide)))
      (IMStep.release _ 0 (by decide)))
      (IMStep.enter _ 1 (by decide) (by decide)), by decide, by decide⟩

/-- Witness for C10: a concrete run where the critical section rejects with
`refresh failed`; the caller gets that exact error back, the lock key is
deleted, and a later acquisition with a fresh token succeeds. -/
theorem withLock_error_releases_lock_witness :
    redisWithLock "did:plc:x" "tok0"
        (fun _ _ => ((Except.error "refresh failed" : Except String Nat), 50,
          [("lock:did:plc:x", ⟨"tok0", 30000⟩)])) id 0 [] =
      (Except.error "refresh failed", 50,
        ldel [("lock:did:plc:x", ⟨"tok0", 30000⟩)] "lock:did:plc:x") ∧
    (lsetNxPx (ldel [("lock:did:plc:x", ⟨"tok0", 30000⟩)] "lock:did:plc:x")
        60 "lock:did:plc:x" "tok1" 30000).1 = true :=
  have h := withLock_error_releases_lock.1 Nat "did:plc:x" "tok0"
    (fun _ _ => (Except.error "refresh failed", 50,
      [("lock:did:plc:x", ⟨"tok0", 30000⟩)])) id 0 [] "refresh failed" 50
    [("lock:did:plc:x", ⟨"tok0", 30000⟩)] (by decide) rfl (by decide)
  ⟨h.1, h.2 60 "tok1"⟩

end Db
